import Mathlib

/-!
Verification of the calculator / changelog repository.

This file gives a shallow embedding of the two Python units of the repository
and proves the specified properties about them.

Part 1 embeds src/calculator.py: the class Calculator (add, subtract, multiply,
divide, power, sqrt, get_history, clear_history) and its subclass
AdvancedCalculator (percentage, factorial).  A calculator instance is a record
holding the identifying name and the history list; each method takes the
instance and returns the result (or an error, for the methods that raise)
together with the updated instance.  Python ints and floats are modelled
exactly as rationals; the only float value that is not rational, the result of
number ** 0.5 in sqrt, is kept symbolic (constructor PyVal.powHalf).  The
f-strings appended to self.history are modelled as structured records (one
constructor per record shape, holding exactly the data interpolated into the
f-string).

Part 2 embeds src/scripts/generate_changelog.py: the class ChangelogGenerator.
The external git tool is modelled as an oracle parameter mapping each issued
command to either its stdout (success) or a CalledProcessError.  The regular
expression of categorize_commit is implemented by a hand-rolled parser with
the exact semantics of Python re.match on that pattern; Python word characters
are modelled as ASCII alphanumerics plus underscore, which yields the same
categorize output on every input because the eleven category keys are ASCII.
-/

/-- Error raised by a calculator method: Python ValueError with its fixed
message for the validated preconditions, and the ZeroDivisionError that the
Python runtime raises for 0 ** negative inside power. -/
inductive CalcError where
  | valueError (msg : String)
  | zeroDivisionError (msg : String)
deriving DecidableEq

/-- One history record of src/calculator.py.  The source appends f-strings;
each constructor captures the exact shape of the record appended by one
method, holding the data interpolated into the f-string:
binOp a op b r for "a op b = r" (op one of +, -, *, /, ^);
sqrtE x for "√x = r" where r is number ** 0.5, determined by x;
percentE p n r for "p% of n = r"; factE n r for "n! = r". -/
inductive Entry where
  | binOp (a : ℚ) (op : String) (b : ℚ) (r : ℚ)
  | sqrtE (x : ℚ)
  | percentE (percent number r : ℚ)
  | factE (n : ℤ) (r : ℕ)
deriving DecidableEq

/-- Value returned by a calculator method.  Python ints and floats are
modelled exactly as rationals; the float number ** 0.5 returned by sqrt is
kept symbolic as powHalf of the radicand. -/
inductive PyVal where
  | num (q : ℚ)
  | powHalf (x : ℚ)
deriving DecidableEq

/-- A Python numeric argument as received by factorial, which checks
isinstance(n, int): either an int, or a float (value modelled as a rational,
failing the isinstance check). -/
inductive PyNumber where
  | int (n : ℤ)
  | float (x : ℚ)
deriving DecidableEq

/-- State of one Calculator instance: the identifying name and the ordered
history of operation records (per-instance attributes set in __init__). -/
structure Calculator where
  name : String
  history : List Entry
deriving DecidableEq

/-- Calculator.__init__: a fresh instance with the given name and an empty
history list. -/
def Calculator.init (name : String) : Calculator :=
  { name := name, history := [] }

/-- The statement self.history.append(e). -/
def Calculator.record (self : Calculator) (e : Entry) : Calculator :=
  { self with history := self.history ++ [e] }

/-- Calculator.add: result = a + b; append "a + b = result"; return result. -/
def Calculator.add (self : Calculator) (a b : ℚ) : ℚ × Calculator :=
  let result := a + b
  (result, self.record (.binOp a "+" b result))

/-- Calculator.subtract: result = a - b; append "a - b = result". -/
def Calculator.subtract (self : Calculator) (a b : ℚ) : ℚ × Calculator :=
  let result := a - b
  (result, self.record (.binOp a "-" b result))

/-- Calculator.multiply: result = a * b; append "a * b = result". -/
def Calculator.multiply (self : Calculator) (a b : ℚ) : ℚ × Calculator :=
  let result := a * b
  (result, self.record (.binOp a "*" b result))

/-- Calculator.divide: if b == 0 raise ValueError("Cannot divide by zero")
before anything is appended; otherwise result = a / b (Python true division,
exact on the rational model), append "a / b = result", return result. -/
def Calculator.divide (self : Calculator) (a b : ℚ) :
    Except CalcError ℚ × Calculator :=
  if b = 0 then
    (.error (.valueError "Cannot divide by zero"), self)
  else
    let result := a / b
    (.ok result, self.record (.binOp a "/" b result))

/-- Calculator.power: result = base ** exponent; append "base ^ exponent =
result".  The exponent is modelled as an integer (zpow is exact on ℚ).  The
source has no explicit check, but the Python runtime raises ZeroDivisionError
for 0 ** negative, which the model reproduces. -/
def Calculator.power (self : Calculator) (base : ℚ) (exponent : ℤ) :
    Except CalcError ℚ × Calculator :=
  if base = 0 ∧ exponent < 0 then
    (.error (.zeroDivisionError "0.0 cannot be raised to a negative power"), self)
  else
    let result := base ^ exponent
    (.ok result, self.record (.binOp base "^" (exponent : ℚ) result))

/-- Calculator.sqrt: if number < 0 raise ValueError("Cannot calculate square
root of negative number") before anything is appended; otherwise return
float(number ** 0.5) (kept symbolic as PyVal.powHalf number) and append
"√number = result". -/
def Calculator.sqrt (self : Calculator) (number : ℚ) :
    Except CalcError PyVal × Calculator :=
  if number < 0 then
    (.error (.valueError "Cannot calculate square root of negative number"), self)
  else
    (.ok (.powHalf number), self.record (.sqrtE number))

/-- Calculator.get_history: return self.history.copy(); the copy is the value
itself in the functional model. -/
def Calculator.get_history (self : Calculator) : List Entry :=
  self.history

/-- Calculator.clear_history: self.history.clear(). -/
def Calculator.clear_history (self : Calculator) : Calculator :=
  { self with history := [] }

/-- AdvancedCalculator is the subclass of Calculator; it adds methods on the
same per-instance state (name, history). -/
abbrev AdvancedCalculator := Calculator

/-- AdvancedCalculator.percentage: result = (number * percent) / 100; append
"percent% of number = result". -/
def AdvancedCalculator.percentage (self : Calculator) (number percent : ℚ) :
    ℚ × Calculator :=
  let result := number * percent / 100
  (result, self.record (.percentE percent number result))

/-- The iterative accumulation of AdvancedCalculator.factorial: result = 1,
then result *= i for i in range(2, n + 1); range(2, n + 1) has n - 1 elements
starting at 2. -/
def factLoop (n : ℕ) : ℕ :=
  (List.range' 2 (n - 1)).foldl (fun acc i => acc * i) 1

/-- AdvancedCalculator.factorial: raise ValueError("Factorial requires an
integer") unless isinstance(n, int); raise ValueError("Factorial not defined
for negative numbers") if n < 0; result = 1 for n in (0, 1), else the
iterative accumulation; append "n! = result"; return result. -/
def AdvancedCalculator.factorial (self : Calculator) (n : PyNumber) :
    Except CalcError ℕ × Calculator :=
  match n with
  | .float _ => (.error (.valueError "Factorial requires an integer"), self)
  | .int m =>
    if m < 0 then
      (.error (.valueError "Factorial not defined for negative numbers"), self)
    else
      let result : ℕ := if m = 0 ∨ m = 1 then 1 else factLoop m.toNat
      (.ok result, self.record (.factE m result))

/-- Claim C1: divide(x, 0) always fails with the divide-by-zero ValueError and
leaves the instance, hence its history, unchanged (the raise precedes the
append); and for every b ≠ 0, divide(a, b) returns a / b (Python float true
division, exact in the rational model) and appends the division record. -/
theorem c1_divide_by_zero_and_result :
    (∀ (a : ℚ) (st : Calculator),
        st.divide a 0 = (.error (.valueError "Cannot divide by zero"), st)) ∧
    (∀ (a b : ℚ) (st : Calculator), b ≠ 0 →
        st.divide a b = (.ok (a / b), st.record (.binOp a "/" b (a / b)))) := by
  constructor
  · intro a st
    simp [Calculator.divide]
  · intro a b st hb
    simp [Calculator.divide, hb]

/-- Claim C1 witness: divide 10 2 on a fresh instance succeeds with 10 / 2 and
records the operation. -/
theorem c1_divide_by_zero_and_result_witness :
    (Calculator.init "calc").divide 10 2 =
      (.ok (10 / 2), (Calculator.init "calc").record (.binOp 10 "/" 2 (10 / 2))) :=
  c1_divide_by_zero_and_result.2 10 2 (Calculator.init "calc") (by decide)

/-- Claim C8: sqrt(x) for x < 0 always fails with the negative-argument
ValueError and leaves the instance unchanged; for x ≥ 0 it succeeds, returning
the float x ** 0.5 (symbolic powHalf x), and appends the sqrt record. -/
theorem c8_sqrt_negative_and_nonnegative :
    (∀ (x : ℚ) (st : Calculator), x < 0 →
        st.sqrt x =
          (.error (.valueError "Cannot calculate square root of negative number"), st)) ∧
    (∀ (x : ℚ) (st : Calculator), 0 ≤ x →
        st.sqrt x = (.ok (.powHalf x), st.record (.sqrtE x))) := by
  constructor
  · intro x st hx
    simp [Calculator.sqrt, hx]
  · intro x st hx
    simp [Calculator.sqrt, not_lt.mpr hx]

/-- Claim C8 witness: sqrt (-1) fails, sqrt 16 succeeds, on a fresh instance. -/
theorem c8_sqrt_negative_and_nonnegative_witness :
    (Calculator.init "calc").sqrt (-1) =
      (.error (.valueError "Cannot calculate square root of negative number"),
        Calculator.init "calc") ∧
    (Calculator.init "calc").sqrt 16 =
      (.ok (.powHalf 16), (Calculator.init "calc").record (.sqrtE 16)) :=
  ⟨c8_sqrt_negative_and_nonnegative.1 (-1) (Calculator.init "calc") (by decide),
   c8_sqrt_negative_and_nonnegative.2 16 (Calculator.init "calc") (by decide)⟩

/-- Claim C9: subtracting b from the result of add(a, b) yields a, exactly,
over the exact rational model of Python numbers (the history state is threaded
through both calls). -/
theorem c9_add_then_subtract_cancels (a b : ℚ) (st : Calculator) :
    ((st.add a b).2.subtract (st.add a b).1 b).1 = a := by
  simp [Calculator.add, Calculator.subtract]

/-- The loop of factorial computes the mathematical factorial: the fold of
range(2, k + 2) starting from 1 equals (k + 1)!. -/
theorem factLoop_fold_eq (k : ℕ) :
    (List.range' 2 k).foldl (fun acc i => acc * i) 1 = Nat.factorial (k + 1) := by
  induction k with
  | zero => rfl
  | succ k ih =>
    rw [List.range'_concat, List.foldl_concat, ih, Nat.factorial_succ (k + 1)]
    ring

/-- The loop of factorial computes the mathematical factorial, for every
starting value n (for n in (0, 1) the loop body never runs). -/
theorem factLoop_eq_factorial (n : ℕ) : factLoop n = Nat.factorial n := by
  cases n with
  | zero => rfl
  | succ m =>
    show (List.range' 2 (m + 1 - 1)).foldl (fun acc i => acc * i) 1 = _
    rw [Nat.add_sub_cancel, factLoop_fold_eq]

/-- The branch of factorial selecting 1 for n in (0, 1) and the loop otherwise
computes toNat n factorial. -/
theorem factorial_branch_eq (m : ℤ) :
    (if m = 0 ∨ m = 1 then 1 else factLoop m.toNat) = m.toNat.factorial := by
  by_cases h : m = 0 ∨ m = 1
  · rcases h with rfl | rfl <;> rfl
  · rw [if_neg h, factLoop_eq_factorial]

/-- One invocation of a calculator method, with its arguments: the possible
operations of the arithmetic engine (Calculator and AdvancedCalculator). -/
inductive OpCall where
  | add (a b : ℚ)
  | sub (a b : ℚ)
  | mul (a b : ℚ)
  | div (a b : ℚ)
  | pow (base : ℚ) (exponent : ℤ)
  | sqrtC (x : ℚ)
  | percent (number percent : ℚ)
  | fact (n : PyNumber)
deriving DecidableEq

/-- Dispatch one method invocation on an instance, wrapping every result as a
PyVal so the outcomes of different methods are comparable. -/
def applyCall : OpCall → Calculator → Except CalcError PyVal × Calculator
  | .add a b, st =>
    let p := st.add a b
    (.ok (.num p.1), p.2)
  | .sub a b, st =>
    let p := st.subtract a b
    (.ok (.num p.1), p.2)
  | .mul a b, st =>
    let p := st.multiply a b
    (.ok (.num p.1), p.2)
  | .div a b, st =>
    match st.divide a b with
    | (.ok r, st2) => (.ok (.num r), st2)
    | (.error e, st2) => (.error e, st2)
  | .pow b e, st =>
    match st.power b e with
    | (.ok r, st2) => (.ok (.num r), st2)
    | (.error e, st2) => (.error e, st2)
  | .sqrtC x, st => st.sqrt x
  | .percent n p, st =>
    let q := AdvancedCalculator.percentage st n p
    (.ok (.num q.1), q.2)
  | .fact n, st =>
    match AdvancedCalculator.factorial st n with
    | (.ok r, st2) => (.ok (.num (r : ℚ)), st2)
    | (.error e, st2) => (.error e, st2)

/-- Whether an invocation succeeds; each method's raise condition depends only
on the arguments, never on the instance state. -/
def callOk : OpCall → Bool
  | .add _ _ => true
  | .sub _ _ => true
  | .mul _ _ => true
  | .div _ b => !decide (b = 0)
  | .pow b e => !decide (b = 0 ∧ e < 0)
  | .sqrtC x => !decide (x < 0)
  | .percent _ _ => true
  | .fact (.float _) => false
  | .fact (.int m) => !decide (m < 0)

/-- The history records an invocation appends: one record on success, none on
failure; determined by the arguments alone. -/
def callEntries : OpCall → List Entry
  | .add a b => [.binOp a "+" b (a + b)]
  | .sub a b => [.binOp a "-" b (a - b)]
  | .mul a b => [.binOp a "*" b (a * b)]
  | .div a b => if b = 0 then [] else [.binOp a "/" b (a / b)]
  | .pow b e => if b = 0 ∧ e < 0 then [] else [.binOp b "^" (e : ℚ) (b ^ e)]
  | .sqrtC x => if x < 0 then [] else [.sqrtE x]
  | .percent n p => [.percentE p n (n * p / 100)]
  | .fact (.float _) => []
  | .fact (.int m) =>
    if m < 0 then [] else [.factE m (if m = 0 ∨ m = 1 then 1 else factLoop m.toNat)]

/-- Run a sequence of invocations on an instance, threading the state; a failed
invocation leaves the state unchanged (the Python object survives the raise). -/
def runCalls : List OpCall → Calculator → Calculator
  | [], st => st
  | c :: cs, st => runCalls cs (applyCall c st).2

/-- Whether every invocation of the sequence succeeds. -/
def allOk : List OpCall → Calculator → Bool
  | [], _ => true
  | c :: cs, st => (applyCall c st).1.isOk && allOk cs (applyCall c st).2

/-- The history records appended by a sequence of invocations. -/
def callsEntries : List OpCall → List Entry
  | [] => []
  | c :: cs => callEntries c ++ callsEntries cs

/-- A world of two calculator instances in which the operations are applied to
the first instance only (as in the demo main, which keeps two instances). -/
def runOnFirst (calls : List OpCall) (p : Calculator × Calculator) :
    Calculator × Calculator :=
  (runCalls calls p.1, p.2)

/-- Each invocation leaves the instance name unchanged and extends the history
by exactly the records of callEntries. -/
theorem applyCall_history (c : OpCall) (st : Calculator) :
    (applyCall c st).2.history = st.history ++ callEntries c := by
  cases c with
  | add a b => simp [applyCall, Calculator.add, Calculator.record, callEntries]
  | sub a b => simp [applyCall, Calculator.subtract, Calculator.record, callEntries]
  | mul a b => simp [applyCall, Calculator.multiply, Calculator.record, callEntries]
  | div a b =>
    by_cases hb : b = 0 <;>
      simp [applyCall, Calculator.divide, Calculator.record, callEntries, hb]
  | pow b e =>
    by_cases h : b = 0 ∧ e < 0 <;>
      simp [applyCall, Calculator.power, Calculator.record, callEntries, h]
  | sqrtC x =>
    by_cases h : x < 0 <;>
      simp [applyCall, Calculator.sqrt, Calculator.record, callEntries, h]
  | percent n p =>
    simp [applyCall, AdvancedCalculator.percentage, Calculator.record, callEntries]
  | fact n =>
    cases n with
    | float x => simp [applyCall, AdvancedCalculator.factorial, callEntries]
    | int m =>
      by_cases h : m < 0 <;>
        simp [applyCall, AdvancedCalculator.factorial, Calculator.record,
          callEntries, h]

/-- Whether an invocation succeeds is callOk of the call, for every state. -/
theorem applyCall_isOk (c : OpCall) (st : Calculator) :
    (applyCall c st).1.isOk = callOk c := by
  cases c with
  | add a b => simp [applyCall, Calculator.add, callOk, Except.isOk, Except.toBool]
  | sub a b => simp [applyCall, Calculator.subtract, callOk, Except.isOk, Except.toBool]
  | mul a b => simp [applyCall, Calculator.multiply, callOk, Except.isOk, Except.toBool]
  | div a b =>
    by_cases hb : b = 0 <;>
      simp [applyCall, Calculator.divide, callOk, Except.isOk, Except.toBool, hb]
  | pow b e =>
    by_cases h : b = 0 ∧ e < 0 <;>
      simp [applyCall, Calculator.power, callOk, Except.isOk, Except.toBool, h]
  | sqrtC x =>
    by_cases h : x < 0 <;>
      simp [applyCall, Calculator.sqrt, callOk, Except.isOk, Except.toBool, h]
  | percent n p =>
    simp [applyCall, AdvancedCalculator.percentage, callOk, Except.isOk, Except.toBool]
  | fact n =>
    cases n with
    | float x => simp [applyCall, AdvancedCalculator.factorial, callOk, Except.isOk, Except.toBool]
    | int m =>
      by_cases h : m < 0 <;>
        simp [applyCall, AdvancedCalculator.factorial, callOk, Except.isOk, Except.toBool, h]

/-- A successful invocation appends exactly one history record. -/
theorem callEntries_length_of_ok (c : OpCall) (h : callOk c = true) :
    (callEntries c).length = 1 := by
  cases c with
  | add a b => rfl
  | sub a b => rfl
  | mul a b => rfl
  | div a b =>
    simp only [callOk, Bool.not_eq_eq_eq_not, Bool.not_true, decide_eq_false_iff_not] at h
    simp [callEntries, h]
  | pow b e =>
    simp only [callOk, Bool.not_eq_eq_eq_not, Bool.not_true, decide_eq_false_iff_not] at h
    simp [callEntries, h]
  | sqrtC x =>
    simp only [callOk, Bool.not_eq_eq_eq_not, Bool.not_true, decide_eq_false_iff_not] at h
    simp [callEntries, h]
  | percent n p => rfl
  | fact n =>
    cases n with
    | float x => simp [callOk] at h
    | int m =>
      simp only [callOk, Bool.not_eq_eq_eq_not, Bool.not_true, decide_eq_false_iff_not] at h
      simp [callEntries, h]

/-- The history after a sequence of invocations is the starting history
followed by the records of the calls, whatever the instance. -/
theorem runCalls_history (calls : List OpCall) (st : Calculator) :
    (runCalls calls st).history = st.history ++ callsEntries calls := by
  induction calls generalizing st with
  | nil => simp [runCalls, callsEntries]
  | cons c cs ih =>
    rw [runCalls, ih, applyCall_history, callsEntries, List.append_assoc]

/-- When every invocation of a sequence succeeds, the history grows by exactly
the number of invocations. -/
theorem runCalls_length_of_allOk (calls : List OpCall) (st : Calculator)
    (h : allOk calls st = true) :
    (runCalls calls st).history.length = st.history.length + calls.length := by
  induction calls generalizing st with
  | nil => simp [runCalls]
  | cons c cs ih =>
    rw [allOk, Bool.and_eq_true] at h
    rw [runCalls, ih _ h.2, applyCall_history, List.length_append,
      callEntries_length_of_ok c (by rw [← applyCall_isOk c st]; exact h.1)]
    simp [List.length_cons]
    omega

/-- Claim C2: on a fresh instance, after k successful operations the history
length is exactly k; clear_history resets the length to 0; the history after
any run is the starting history extended by records determined by that
instance's own calls alone, so the history never depends on the instance name;
and in a two-instance world, operations applied to one instance leave the
other instance entirely unchanged. -/
theorem c2_history_length_and_isolation :
    (∀ (name : String) (calls : List OpCall),
        allOk calls (Calculator.init name) = true →
        (runCalls calls (Calculator.init name)).history.length = calls.length) ∧
    (∀ st : Calculator, st.clear_history.history.length = 0) ∧
    (∀ (calls : List OpCall) (st : Calculator),
        (runCalls calls st).history = st.history ++ callsEntries calls) ∧
    (∀ (calls : List OpCall) (n₁ n₂ : String),
        (runCalls calls (Calculator.init n₁)).history
          = (runCalls calls (Calculator.init n₂)).history) ∧
    (∀ (calls : List OpCall) (c₁ c₂ : Calculator),
        (runOnFirst calls (c₁, c₂)).2 = c₂) := by
  refine ⟨?_, ?_, ?_, ?_, ?_⟩
  · intro name calls h
    rw [runCalls_length_of_allOk calls _ h]
    simp [Calculator.init]
  · intro st
    rfl
  · intro calls st
    exact runCalls_history calls st
  · intro calls n₁ n₂
    rw [runCalls_history, runCalls_history]
    simp [Calculator.init]
  · intro calls c₁ c₂
    rfl

/-- Claim C2 witness: the eight demo operations all succeed on a fresh
instance and leave a history of length eight. -/
theorem c2_history_length_and_isolation_witness :
    (runCalls
        [OpCall.add 2 3, .sub 10 4, .mul 5 6, .div 20 4, .pow 2 8, .sqrtC 16,
          .percent 200 15, .fact (.int 5)]
        (Calculator.init "BasicCalc")).history.length
      = [OpCall.add 2 3, .sub 10 4, .mul 5 6, .div 20 4, .pow 2 8, .sqrtC 16,
          .percent 200 15, .fact (.int 5)].length :=
  c2_history_length_and_isolation.1 "BasicCalc" _ (by decide)

/-- Claim C3: factorial(0) and factorial(1) both return 1; factorial(n) for
n ≥ 0 returns n!; for n ≥ 2 the returned value is n times the value returned
for n - 1; factorial raises on negative integers; and factorial raises on
non-integer (float) arguments, each raise leaving the instance unchanged. -/
theorem c3_factorial_behaviour :
    (∀ st : Calculator,
        AdvancedCalculator.factorial st (.int 0) = (.ok 1, st.record (.factE 0 1))) ∧
    (∀ st : Calculator,
        AdvancedCalculator.factorial st (.int 1) = (.ok 1, st.record (.factE 1 1))) ∧
    (∀ (m : ℤ) (st : Calculator), 0 ≤ m →
        (AdvancedCalculator.factorial st (.int m)).1 = .ok m.toNat.factorial) ∧
    (∀ (m : ℤ) (st : Calculator), 2 ≤ m →
        (AdvancedCalculator.factorial st (.int m)).1 =
          Except.map (fun r => m.toNat * r)
            ((AdvancedCalculator.factorial st (.int (m - 1))).1)) ∧
    (∀ (m : ℤ) (st : Calculator), m < 0 →
        AdvancedCalculator.factorial st (.int m) =
          (.error (.valueError "Factorial not defined for negative numbers"), st)) ∧
    (∀ (x : ℚ) (st : Calculator),
        AdvancedCalculator.factorial st (.float x) =
          (.error (.valueError "Factorial requires an integer"), st)) := by
  have hval : ∀ (m : ℤ) (st : Calculator), 0 ≤ m →
      (AdvancedCalculator.factorial st (.int m)).1 = .ok m.toNat.factorial := by
    intro m st hm
    simp [AdvancedCalculator.factorial, not_lt.mpr hm, factorial_branch_eq]
  refine ⟨?_, ?_, hval, ?_, ?_, ?_⟩
  · intro st
    simp [AdvancedCalculator.factorial, Calculator.record]
  · intro st
    simp [AdvancedCalculator.factorial, Calculator.record]
  · intro m st hm
    rw [hval m st (by omega), hval (m - 1) st (by omega), Except.map]
    obtain ⟨k, hk1, hk2⟩ : ∃ k, m.toNat = k + 1 ∧ (m - 1).toNat = k :=
      ⟨(m - 1).toNat, by omega, rfl⟩
    rw [hk1, hk2, Nat.factorial_succ]
  · intro m st hm
    simp [AdvancedCalculator.factorial, hm]
  · intro x st
    rfl

/-- Claim C3 witness: factorial(5) returns 120 on a fresh instance. -/
theorem c3_factorial_behaviour_witness :
    (AdvancedCalculator.factorial (Calculator.init "AdvancedCalc") (.int 5)).1
      = .ok 120 :=
  c3_factorial_behaviour.2.2.1 5 (Calculator.init "AdvancedCalc") (by decide)

/-- Claim C5 counterexample: sqrt 16 succeeds, and the single record it appends,
the sqrt record "√16 = 4.0", is not of the binary form "a op b = result" (it is
a sqrtE record, not a binOp record): the claim that every successful operation,
including sqrt, percentage and factorial, appends a record of that binary form
is false. -/
theorem c5_counterexample_sqrt_record :
    (applyCall (.sqrtC 16) (Calculator.init "calc")).1.isOk = true ∧
    (applyCall (.sqrtC 16) (Calculator.init "calc")).2.history = [Entry.sqrtE 16] ∧
    ¬ ∃ (a : ℚ) (op : String) (b r : ℚ), Entry.sqrtE 16 = Entry.binOp a op b r := by
  refine ⟨by decide, by decide, ?_⟩
  rintro ⟨a, op, b, r, h⟩
  exact Entry.noConfusion h

/-- Claim C5 as amended: every successful operation appends exactly one record
and returns its numeric result, and the record of each binary operation (add,
subtract, multiply, divide, power) has the binary form "a op b = result" with
the operand values, the operator symbol and the result; sqrt instead appends
"√x = result", percentage appends "percent% of number = result", and factorial
appends "n! = result". -/
theorem c5_amended_record_shapes :
    (∀ (a b : ℚ) (st : Calculator),
        st.add a b = (a + b, st.record (.binOp a "+" b (a + b)))) ∧
    (∀ (a b : ℚ) (st : Calculator),
        st.subtract a b = (a - b, st.record (.binOp a "-" b (a - b)))) ∧
    (∀ (a b : ℚ) (st : Calculator),
        st.multiply a b = (a * b, st.record (.binOp a "*" b (a * b)))) ∧
    (∀ (a b : ℚ) (st : Calculator), b ≠ 0 →
        st.divide a b = (.ok (a / b), st.record (.binOp a "/" b (a / b)))) ∧
    (∀ (b : ℚ) (e : ℤ) (st : Calculator), ¬(b = 0 ∧ e < 0) →
        st.power b e = (.ok (b ^ e), st.record (.binOp b "^" (e : ℚ) (b ^ e)))) ∧
    (∀ (x : ℚ) (st : Calculator), 0 ≤ x →
        st.sqrt x = (.ok (.powHalf x), st.record (.sqrtE x))) ∧
    (∀ (n p : ℚ) (st : Calculator),
        AdvancedCalculator.percentage st n p
          = (n * p / 100, st.record (.percentE p n (n * p / 100)))) ∧
    (∀ (m : ℤ) (st : Calculator), 0 ≤ m →
        AdvancedCalculator.factorial st (.int m)
          = (.ok m.toNat.factorial, st.record (.factE m m.toNat.factorial))) := by
  refine ⟨?_, ?_, ?_, ?_, ?_, ?_, ?_, ?_⟩
  · intro a b st
    rfl
  · intro a b st
    rfl
  · intro a b st
    rfl
  · intro a b st hb
    simp [Calculator.divide, hb]
  · intro b e st h
    simp [Calculator.power, h]
  · intro x st hx
    simp [Calculator.sqrt, not_lt.mpr hx]
  · intro n p st
    rfl
  · intro m st hm
    simp [AdvancedCalculator.factorial, not_lt.mpr hm, factorial_branch_eq]

/-- Claim C5 amended witness: factorial(3) succeeds, returns 3! and records the
factorial-shaped record. -/
theorem c5_amended_record_shapes_witness :
    AdvancedCalculator.factorial (Calculator.init "adv") (.int 3)
      = (.ok (Int.toNat 3).factorial,
          (Calculator.init "adv").record (.factE 3 (Int.toNat 3).factorial)) :=
  c5_amended_record_shapes.2.2.2.2.2.2.2 3 (Calculator.init "adv") (by decide)

/-- A commit record as built by get_commits_between from one line of git log
output in the format hash|subject|author|date: short hash (first 7
characters), message, author, date, all strings. -/
structure Commit where
  hash : String
  message : String
  author : String
  date : String
deriving DecidableEq

/-- The commit_types dict of ChangelogGenerator.__init__, as the ordered list
of its key-value pairs (Python dicts preserve insertion order). -/
def commit_types : List (String × String) :=
  [("feat", "Features"), ("fix", "Bug Fixes"), ("docs", "Documentation"),
   ("style", "Styles"), ("refactor", "Code Refactoring"), ("perf", "Performance"),
   ("test", "Tests"), ("build", "Build System"), ("ci", "CI/CD"),
   ("chore", "Chores"), ("revert", "Reverts")]

/-- A word character of the regex class in categorize_commit, modelled as
ASCII alphanumeric or underscore.  Python treats further Unicode word
characters as word characters; since the eleven category keys are ASCII and
lowercase ASCII is reached only from ASCII, the categorize output agrees with
Python on every message. -/
def isWordChar (c : Char) : Bool :=
  c.isAlphanum || c == '_'

/-- The tail ": (.+)$" of the regex of categorize_commit, applied after the
leading word and optional scope: a colon, a space, then a non-empty rest that
contains no newline, with re.match allowing one trailing newline before the
end anchor. -/
def matchTail (w : List Char) (sc : Option (List Char)) (r : List Char) :
    Option (String × Option String × String) :=
  match r with
  | ':' :: ' ' :: rest =>
    let core := if rest.getLast? = some '\n' then rest.dropLast else rest
    if core = [] ∨ core.contains '\n' then none
    else some (String.mk w, sc.map String.mk, String.mk core)
  | _ => none

/-- The regex of categorize_commit, a leading word, an optional parenthesised
scope and the rest after ": ", with the semantics of Python re.match on that
pattern: the word is the maximal leading run of word characters (non-empty);
if the next character opens a parenthesis, the scope is the maximal run of
characters other than the closing parenthesis (non-empty) and must be
followed by the closing parenthesis; when the parenthesised group cannot be
completed the regex engine retries without the optional group, which then
fails on the colon requirement. -/
def parseConv (message : String) : Option (String × Option String × String) :=
  let p := message.toList.span isWordChar
  if p.1 = [] then none
  else
    match p.2 with
    | '(' :: r2 =>
      let q := r2.span (fun c => !(c == ')'))
      match q.2 with
      | ')' :: r4 => if q.1 = [] then none else matchTail p.1 (some q.1) r4
      | _ => none
    | r1 => matchTail p.1 none r1

/-- Python str.lower on the matched word, mapping ASCII uppercase letters to
lowercase.  On the matched word this agrees with Python for the membership
test against the ASCII category keys. -/
def lowerStr (s : String) : String :=
  String.mk (s.toList.map Char.toLower)

/-- ChangelogGenerator.categorize_commit: match the conventional-commit
pattern; on a match whose lowercased leading word is a key of commit_types,
return that key with the cleaned message ("**scope**: description" when a
scope is present, the bare description otherwise); in every other case return
"other" with the original message unmodified. -/
def categorize_commit (message : String) : String × String :=
  match parseConv message with
  | some (w, sc, description) =>
    let commit_type := lowerStr w
    if (commit_types.map Prod.fst).contains commit_type then
      match sc with
      | some scopeStr => (commit_type, "**" ++ scopeStr ++ "**: " ++ description)
      | none => (commit_type, description)
    else ("other", message)
  | none => ("other", message)

/-- One iteration of the grouping loop of group_commits_by_type: categorize
the commit and append it, with its cleaned message, to the bucket of its
category (grouped is modelled as the lookup function of the defaultdict). -/
def groupStep (g : String → List (Commit × String)) (c : Commit) :
    String → List (Commit × String) :=
  let tc := categorize_commit c.message
  fun k => if k = tc.1 then g k ++ [(c, tc.2)] else g k

/-- ChangelogGenerator.group_commits_by_type: fold the grouping loop over the
commits, starting from the empty defaultdict. -/
def group_commits_by_type (commits : List Commit) :
    String → List (Commit × String) :=
  commits.foldl groupStep (fun _ => [])

/-- The bullet line "- cleaned ([hash])" emitted for one grouped commit. -/
def bulletLine (p : Commit × String) : String :=
  "- " ++ p.2 ++ " ([" ++ p.1.hash ++ "])"

/-- The lines a non-empty category contributes to a version section: the
heading, a blank line, one bullet per commit, a blank line. -/
def sectionBlock (title : String) (items : List (Commit × String)) :
    List String :=
  ["### " ++ title, ""] ++ items.map bulletLine ++ [""]

/-- ChangelogGenerator.generate_version_section: the version heading and a
blank line, then for each key of commit_types in insertion order whose bucket
is non-empty the section block with the dict's title, then the "Other
Changes" block when the "other" bucket is non-empty, joined by newlines. -/
def generate_version_section (version date : String) (commits : List Commit) :
    String :=
  let grouped := group_commits_by_type commits
  let lines0 := ["## [" ++ version ++ "] - " ++ date, ""]
  let lines1 := commit_types.foldl
    (fun ls tt =>
      if grouped tt.1 = [] then ls else ls ++ sectionBlock tt.2 (grouped tt.1))
    lines0
  let lines2 :=
    if grouped "other" = [] then lines1
    else lines1 ++ sectionBlock "Other Changes" (grouped "other")
  String.intercalate "\n" lines2

/-- One git command issued by the generator: the tag listing, a commit log
over a range, or the single-commit date query for a tag. -/
inductive GitCmd where
  | tagList
  | log (range : String)
  | tagDate (tag : String)
deriving DecidableEq

/-- Outcome of one subprocess.run git invocation with check=True: the captured
stdout on success, or the CalledProcessError raised on failure. -/
abbrev GitOracle := GitCmd → Except Unit String

/-- ChangelogGenerator.get_git_tags: split the stripped stdout of git tag
--sort=-creatordate on newlines and keep the non-empty entries; the empty
list when the invocation fails. -/
def get_git_tags (git : GitOracle) : List String :=
  match git .tagList with
  | .ok out => (out.trim.splitOn "\n").filter (fun t => t != "")
  | .error _ => []

/-- The ref range passed to git log: "from..to" when a from ref is given,
otherwise the to ref alone. -/
def refRange : Option String → String → String
  | some f, t => f ++ ".." ++ t
  | none, t => t

/-- Parsing of one git log output line in get_commits_between: empty lines
are skipped, a line splits on the pipe character into at least four fields
(hash truncated to 7 characters, message, author, date), and shorter lines
are skipped. -/
def parseCommitLine (line : String) : Option Commit :=
  if line = "" then none
  else
    match line.splitOn "|" with
    | h :: msg :: author :: date :: _ => some ⟨h.take 7, msg, author, date⟩
    | _ => none

/-- ChangelogGenerator.get_commits_between: parse the lines of the stripped
stdout of git log over the ref range; the empty list when the invocation
fails. -/
def get_commits_between (git : GitOracle) (from_ref : Option String)
    (to_ref : String) : List Commit :=
  match git (.log (refRange from_ref to_ref)) with
  | .ok out => (out.trim.splitOn "\n").filterMap parseCommitLine
  | .error _ => []

/-- The seven fixed header lines of generate_changelog. -/
def headerLines : List String :=
  ["# Changelog", "",
   "All notable changes to this project will be documented in this file.", "",
   "The format is based on [Keep a Changelog](https://keepachangelog.com/en/1.0.0/),",
   "and this project adheres to [Semantic Versioning](https://semver.org/spec/v2.0.0.html).",
   ""]

/-- Python list.insert: insert before the given position, appending when the
position is past the end. -/
def pyInsert {α : Type} : ℕ → α → List α → List α
  | 0, x, l => x :: l
  | _ + 1, x, [] => [x]
  | n + 1, x, y :: ys => y :: pyInsert n x ys

/-- Each tag paired with its immediate predecessor tags[i + 1] (None for the
last tag), as enumerated by the loop of generate_changelog. -/
def tagRanges : List String → List (String × Option String)
  | [] => []
  | t :: ts => (t, ts.head?) :: tagRanges ts

/-- The git log -1 --format=%ad date query for a tag, stripped; the current
date (the today parameter, datetime.now in the source) on failure. -/
def tagDateOf (git : GitOracle) (today tag : String) : String :=
  match git (.tagDate tag) with
  | .ok out => out.trim
  | .error _ => today

/-- ChangelogGenerator.generate_changelog: the fixed header; when tags exist,
one section per tag with a non-empty commit range against its predecessor
(the oldest tag ranging over all history up to it), followed by an
"Unreleased" section for commits after the newest tag inserted at line 7 (and
a blank line at 8) when non-empty; when no tags exist, a single "Unreleased"
section covering all commits when non-empty; joined by newlines. -/
def generate_changelog (git : GitOracle) (today : String) : String :=
  let tags := get_git_tags git
  match tags with
  | [] =>
    let all_commits := get_commits_between git none "HEAD"
    if all_commits = [] then String.intercalate "\n" headerLines
    else
      String.intercalate "\n"
        (headerLines ++ [generate_version_section "Unreleased" today all_commits])
  | t0 :: _ =>
    let lines1 := (tagRanges tags).foldl
      (fun ls tr =>
        let commits := get_commits_between git tr.2 tr.1
        if commits = [] then ls
        else ls ++ [generate_version_section tr.1 (tagDateOf git today tr.1) commits])
      headerLines
    let unreleased := get_commits_between git (some t0) "HEAD"
    if unreleased = [] then String.intercalate "\n" lines1
    else
      String.intercalate "\n"
        (pyInsert 8 ""
          (pyInsert 7 (generate_version_section "Unreleased" today unreleased) lines1))

/-- A category key of commit_types is already lowercase. -/
theorem lowerStr_of_key (w : String)
    (h : (commit_types.map Prod.fst).contains w = true) : lowerStr w = w := by
  simp [commit_types] at h
  rcases h with rfl | rfl | rfl | rfl | rfl | rfl | rfl | rfl | rfl | rfl | rfl <;> rfl

/-- Claim C4: categorize applies the pattern word, optional parenthesised
scope, colon, space, rest; when the message matches and the leading word is
one of the eleven fixed categories, it returns that category with
"**scope**: rest" (or just rest without a scope); otherwise, when the message
does not match, or its lowercased leading word is not a category (matching is
case-insensitive, see C10), it returns "other" with the original message
unmodified; in particular on the two example messages. -/
theorem c4_categorize_pattern :
    (∀ (message w : String) (sc : Option String) (rest : String),
        parseConv message = some (w, sc, rest) →
        (commit_types.map Prod.fst).contains w = true →
        categorize_commit message =
          (w, match sc with
              | some s => "**" ++ s ++ "**: " ++ rest
              | none => rest)) ∧
    (∀ message : String, parseConv message = none →
        categorize_commit message = ("other", message)) ∧
    (∀ (message w : String) (sc : Option String) (rest : String),
        parseConv message = some (w, sc, rest) →
        (commit_types.map Prod.fst).contains (lowerStr w) = false →
        categorize_commit message = ("other", message)) ∧
    categorize_commit "feat(api): add endpoint" = ("feat", "**api**: add endpoint") ∧
    categorize_commit "random text" = ("other", "random text") := by
  refine ⟨?_, ?_, ?_, by decide, by decide⟩
  · intro message w sc rest hp hw
    have hl := lowerStr_of_key w hw
    cases sc with
    | none =>
      simp only [categorize_commit, hp]
      rw [hl, if_pos hw]
    | some s =>
      simp only [categorize_commit, hp]
      rw [hl, if_pos hw]
  · intro message hp
    simp [categorize_commit, hp]
  · intro message w sc rest hp hw
    simp only [categorize_commit, hp]
    rw [if_neg (by rw [hw]; simp)]

/-- Claim C4 witness: the feat(api) example, through the general clause. -/
theorem c4_categorize_pattern_witness :
    categorize_commit "feat(api): add endpoint" = ("feat", "**api**: add endpoint") :=
  c4_categorize_pattern.1 "feat(api): add endpoint" "feat" (some "api")
    "add endpoint" (by decide) (by decide)

/-- Claim C10: commit-type matching is case-insensitive: whenever the message
matches the pattern and the lowercased leading word is one of the eleven
categories, categorize returns the lowercase category with the cleaned
message, rather than "other"; in particular for "FEAT: x" and "Fix: y". -/
theorem c10_case_insensitive_matching :
    (∀ (message w : String) (sc : Option String) (rest : String),
        parseConv message = some (w, sc, rest) →
        (commit_types.map Prod.fst).contains (lowerStr w) = true →
        categorize_commit message =
          (lowerStr w, match sc with
                       | some s => "**" ++ s ++ "**: " ++ rest
                       | none => rest)) ∧
    categorize_commit "FEAT: x" = ("feat", "x") ∧
    categorize_commit "Fix: y" = ("fix", "y") := by
  refine ⟨?_, by decide, by decide⟩
  intro message w sc rest hp hw
  cases sc with
  | none =>
    simp only [categorize_commit, hp]
    rw [if_pos hw]
  | some s =>
    simp only [categorize_commit, hp]
    rw [if_pos hw]

/-- Claim C10 witness: the upper-case example, through the general clause. -/
theorem c10_case_insensitive_matching_witness :
    categorize_commit "FEAT: x" = (lowerStr "FEAT", "x") :=
  c10_case_insensitive_matching.1 "FEAT: x" "FEAT" none "x" (by decide) (by decide)

/-- Claim C6: a failed tag listing yields the empty tag list, a failed log
query yields the empty commit list, and when every git invocation fails the
whole run still completes, producing exactly the fixed header. -/
theorem c6_tool_failure_swallowed :
    (∀ git : GitOracle, git .tagList = .error () → get_git_tags git = []) ∧
    (∀ (git : GitOracle) (from_ref : Option String) (to_ref : String),
        git (.log (refRange from_ref to_ref)) = .error () →
        get_commits_between git from_ref to_ref = []) ∧
    (∀ (git : GitOracle) (today : String), (∀ c, git c = .error ()) →
        generate_changelog git today = String.intercalate "\n" headerLines) := by
  refine ⟨?_, ?_, ?_⟩
  · intro git h
    simp [get_git_tags, h]
  · intro git fr tref h
    simp [get_commits_between, h]
  · intro git today h
    have h1 : get_git_tags git = [] := by simp [get_git_tags, h GitCmd.tagList]
    have h2 : get_commits_between git none "HEAD" = [] := by
      simp [get_commits_between, h]
    simp [generate_changelog, h1, h2]

/-- The always-failing git oracle. -/
def failGit : GitOracle := fun _ => .error ()

/-- Claim C6 witness: under the always-failing oracle, tags and commits are
empty and the generated changelog is exactly the header. -/
theorem c6_tool_failure_swallowed_witness :
    get_git_tags failGit = [] ∧
    get_commits_between failGit (some "v1.0.0") "HEAD" = [] ∧
    generate_changelog failGit "2026-10-12" = String.intercalate "\n" headerLines :=
  ⟨c6_tool_failure_swallowed.1 failGit rfl,
   c6_tool_failure_swallowed.2.1 failGit (some "v1.0.0") "HEAD" rfl,
   c6_tool_failure_swallowed.2.2 failGit "2026-10-12" (fun _ => rfl)⟩

/-- Written after the words of the spec, for comparison with the source
definition: the fixed taxonomy display order, the eleven categories followed
by "other" last, each with its heading title. -/
def specCategoryOrder : List (String × String) :=
  [("feat", "Features"), ("fix", "Bug Fixes"), ("docs", "Documentation"),
   ("style", "Styles"), ("refactor", "Code Refactoring"), ("perf", "Performance"),
   ("test", "Tests"), ("build", "Build System"), ("ci", "CI/CD"),
   ("chore", "Chores"), ("revert", "Reverts"), ("other", "Other Changes")]

/-- Written after the words of the spec: the commits of one category, in input
order, each rendered as the bullet "- cleanedMessage ([shortHash])". -/
def specBullets (commits : List Commit) (cat : String) : List String :=
  commits.filterMap (fun c =>
    if (categorize_commit c.message).1 = cat
    then some ("- " ++ (categorize_commit c.message).2 ++ " ([" ++ c.hash ++ "])")
    else none)

/-- Written after the words of the spec: render emits the version heading,
then, for each category of the display order that has commits, a heading
followed by one bullet per commit of that category. -/
def specRender (version date : String) (commits : List Commit) : String :=
  String.intercalate "\n"
    (["## [" ++ version ++ "] - " ++ date, ""] ++
      specCategoryOrder.flatMap (fun ct =>
        if specBullets commits ct.1 = [] then []
        else ["### " ++ ct.2, ""] ++ specBullets commits ct.1 ++ [""]))

/-- The defaultdict grouping fold, started from any table: each bucket gains
exactly the commits of its category, in input order, with cleaned messages. -/
theorem foldl_groupStep (commits : List Commit)
    (g : String → List (Commit × String)) (t : String) :
    (commits.foldl groupStep g) t =
      g t ++ commits.filterMap (fun c =>
        if (categorize_commit c.message).1 = t
        then some (c, (categorize_commit c.message).2) else none) := by
  induction commits generalizing g with
  | nil => simp
  | cons c cs ih =>
    rw [List.foldl_cons, ih, List.filterMap_cons]
    by_cases h : (categorize_commit c.message).1 = t
    · rw [if_pos h]
      simp only [groupStep]
      rw [if_pos h.symm, List.append_assoc, List.singleton_append]
    · rw [if_neg h]
      simp only [groupStep]
      rw [if_neg (fun hh => h hh.symm)]

/-- The bucket of a category after group_commits_by_type is the filtered
commit list of that category, in input order, with cleaned messages. -/
theorem group_commits_eq (commits : List Commit) (t : String) :
    group_commits_by_type commits t =
      commits.filterMap (fun c =>
        if (categorize_commit c.message).1 = t
        then some (c, (categorize_commit c.message).2) else none) := by
  rw [group_commits_by_type, foldl_groupStep]
  simp

/-- The spec-side bullets of a category are the rendered bucket of the
source-side grouping. -/
theorem specBullets_eq (commits : List Commit) (t : String) :
    specBullets commits t = (group_commits_by_type commits t).map bulletLine := by
  rw [group_commits_eq, List.map_filterMap]
  simp only [specBullets]
  congr 1
  funext c
  by_cases h : (categorize_commit c.message).1 = t <;> simp [h, bulletLine]

/-- A fold that conditionally appends a block per element is the flat
concatenation of the per-element blocks after the start value. -/
theorem foldl_ite_append {α β : Type} (P : α → Prop) [DecidablePred P]
    (F : α → List β) (l : List α) (init : List β) :
    l.foldl (fun ls x => if P x then ls else ls ++ F x) init =
      init ++ l.flatMap (fun x => if P x then [] else F x) := by
  induction l generalizing init with
  | nil => simp
  | cons x xs ih =>
    rw [List.foldl_cons, ih, List.flatMap_cons]
    by_cases h : P x
    · rw [if_pos h, if_pos h]
      simp
    · rw [if_neg h, if_neg h, List.append_assoc]

/-- Conditionally extending a list is appending a conditional block. -/
theorem ite_extend {β : Type} (P : Prop) [Decidable P] (l m : List β) :
    (if P then l else l ++ m) = l ++ if P then [] else m := by
  by_cases h : P <;> simp [h]

/-- The source-side block of one category equals the spec-side block. -/
theorem block_eq (commits : List Commit) (t title : String) :
    (if group_commits_by_type commits t = [] then []
     else sectionBlock title (group_commits_by_type commits t)) =
      (if specBullets commits t = [] then []
       else ["### " ++ title, ""] ++ specBullets commits t ++ [""]) := by
  rw [specBullets_eq]
  by_cases h : group_commits_by_type commits t = []
  · simp [h]
  · rw [if_neg h, if_neg (by simpa using h)]
    rfl

/-- Claim C7: for every version, date and commit list, the version section of
the source groups the commits by category and emits the categories in the
fixed display order (the eleven categories of the taxonomy, then "other"
last), a heading only per non-empty category, followed by one bullet
"- cleanedMessage ([shortHash])" per commit of that category: it coincides
with the rendering written after the words of the spec. -/
theorem c7_version_section_matches_spec (version date : String)
    (commits : List Commit) :
    generate_version_section version date commits =
      specRender version date commits := by
  simp only [generate_version_section, specRender]
  rw [foldl_ite_append (fun tt : String × String => group_commits_by_type commits tt.1 = [])
      (fun tt => sectionBlock tt.2 (group_commits_by_type commits tt.1)) commit_types,
    ite_extend]
  have hcats : specCategoryOrder = commit_types ++ [("other", "Other Changes")] := by decide
  have hf : (fun tt : String × String =>
        if group_commits_by_type commits tt.1 = [] then []
        else sectionBlock tt.2 (group_commits_by_type commits tt.1)) =
      (fun tt : String × String =>
        if specBullets commits tt.1 = [] then []
        else ["### " ++ tt.2, ""] ++ specBullets commits tt.1 ++ [""]) :=
    funext fun tt => block_eq commits tt.1 tt.2
  rw [hcats, List.flatMap_append, hf, block_eq commits "other" "Other Changes"]
  simp [List.append_assoc]
